import Mathlib

/-!
# Verification of the `useKeibaOracle` state-synchronization controller

Shallow embedding of `src/web/hooks/useKeibaOracle.ts` (whose source is
included at the end of `src/web/hooks/__tests__/useKeibaOracle.test.ts`)
and `src/web/lib/types.ts`.

Modelling conventions:
* `NodeType` mirrors the four-value union type in `types.ts`.
* JavaScript numbers that only get stored and compared (never floating-point
  arithmetic) are modelled as `ℚ`.
* The hook's mutable refs and `useState` cells become fields of `HookState`.
* A React render delivering a (possibly missing) agent state to the
  node-change `useEffect` is a `deliver` event; elapsing fake-timer time is a
  `tick` event.  React runs the effect body only when the dependency
  `state?.active_node` changed (`lastDep` remembers the previous dependency
  value; `none` means the effect has never run), and runs the previous
  effect run's cleanup (`clearTimeout`) before the new body.
* Subscribed callbacks are identified by a `Nat` (the JS function reference)
  together with what they do to the observer registry when invoked
  (`CbAction`); `Set.prototype.forEach` with deletions during iteration is
  modelled by walking the registration list in insertion order and checking
  membership in the current (mutated) registry before each invocation.
-/

namespace KeibaOracle

/-- `NodeType` from `src/web/lib/types.ts`:
`"scout" | "strategist" | "auditor" | "idle"`. -/
inductive NodeType
  | scout
  | strategist
  | auditor
  | idle
deriving DecidableEq, Repr

/-- `ReasoningStep` from `types.ts`. -/
structure ReasoningStep where
  timestamp : String
  node : NodeType
  thought : String
  action : Option String
  observation : Option String
deriving DecidableEq, Repr

/-- `ScoutData` from `types.ts` (`horse_data` entries are string maps). -/
structure ScoutData where
  racecourse : String
  track_condition : String
  weather : String
  horse_data : List (List (String × String))
  sources : List String
deriving DecidableEq, Repr

/-- `StrategyDraft` from `types.ts`. -/
structure StrategyDraft where
  recommended_horse : String
  confidence_score : ℚ
  reasoning_summary : String
  kelly_fraction : Option ℚ
deriving DecidableEq, Repr

/-- `ToolCall` from `types.ts`. -/
structure ToolCall where
  timestamp : String
  tool : String
  args : List (String × String)
  node : String
deriving DecidableEq, Repr

/-- `OracleState` from `types.ts`. -/
structure OracleState where
  active_node : NodeType
  reasoning_trace : List ReasoningStep
  scout_data : Option ScoutData
  strategy_draft : Option StrategyDraft
  risk_score : ℚ
  requires_backtrack : Bool
  backtrack_reason : Option String
  backtrack_count : Nat
  query : String
  tool_calls : List ToolCall
  final_recommendation : Option String
deriving DecidableEq, Repr

/-- `DEFAULT_STATE` from `useKeibaOracle.ts`. -/
def DEFAULT_STATE : OracleState :=
  { active_node := NodeType.idle
    reasoning_trace := []
    scout_data := none
    strategy_draft := none
    risk_score := 0
    requires_backtrack := false
    backtrack_reason := none
    backtrack_count := 0
    query := ""
    tool_calls := []
    final_recommendation := none }

/-- What a subscribed node-change callback does to the observer registry when
invoked: nothing, or delete some callback reference (the body of an
`unsubscribe` closure returned by `onNodeChange`). -/
inductive CbAction
  | nop
  | unsub (j : Nat)
deriving DecidableEq, Repr

/-- The observer registry `onNodeChangeCallbacks.current : Set<cb>`, as the
list of registrations in insertion order (a JS `Set` keyed by function
reference). -/
abbrev Registry := List (Nat × CbAction)

/-- Effect of one callback invocation on the registry:
`unsub j` is `onNodeChangeCallbacks.current.delete(j)`. -/
def applyCb (regs : Registry) : CbAction → Registry
  | CbAction.nop => regs
  | CbAction.unsub j => regs.filter (fun p => p.1 != j)

/-- `Set.prototype.forEach` over the registry with live mutation (deletions
only, which is all `CbAction` can do): walk the snapshot of registrations in
insertion order; a callback deleted from the current registry before its turn
is skipped.  Returns the invoked callback references in order, and the final
registry. -/
def forEachLive : List (Nat × CbAction) → Registry → List Nat × Registry
  | [], cur => ([], cur)
  | p :: ps, cur =>
    if cur.any (fun q => q.1 == p.1) then
      let rest := forEachLive ps (applyCb cur p.2)
      (p.1 :: rest.1, rest.2)
    else
      forEachLive ps cur

/-- `onNodeChangeCallbacks.current.forEach((callback) => callback(currentNode))`. -/
def broadcast (regs : Registry) : List Nat × Registry :=
  forEachLive regs regs

/-- `onNodeChange(callback)`: `onNodeChangeCallbacks.current.add(callback)` —
a JS `Set`, so adding an already-present reference is a no-op. -/
def onNodeChange (regs : Registry) (cb : Nat × CbAction) : Registry :=
  if cb.1 ∈ regs.map Prod.fst then regs else regs ++ [cb]

/-- The closure returned by `onNodeChange`:
`onNodeChangeCallbacks.current.delete(callback)`. -/
def unsubscribe (i : Nat) (regs : Registry) : Registry :=
  regs.filter (fun p => p.1 != i)

/-- A sequence of broadcasts against an evolving registry, collecting every
invocation (models the callback traffic of later transitions). -/
def broadcastIter (regs : Registry) : Nat → List Nat × Registry
  | 0 => ([], regs)
  | k + 1 =>
    let b := broadcast regs
    let rest := broadcastIter b.2 k
    (b.1 ++ rest.1, rest.2)

/-- The controller's mutable state:
`lastDep` is React's memory of the effect dependency `state?.active_node`
(`none` = the effect has never run); `previousNode` is
`previousNode.current`; `callbacks` is `onNodeChangeCallbacks.current`;
`pulsingNode` the `useState` cell; `timer` the pending `setTimeout` handle as
remaining time until it fires. -/
structure HookState where
  lastDep : Option (Option NodeType)
  previousNode : Option NodeType
  callbacks : Registry
  pulsingNode : Option NodeType
  timer : Option Nat
deriving DecidableEq, Repr

/-- `const currentNode = state?.active_node || "idle"` at the typed level:
a missing agent state resolves to `idle` (a present `active_node` is a
non-empty string, hence truthy). -/
def resolveNode (a : Option NodeType) : NodeType :=
  a.getD NodeType.idle

/-- One delivery of `state?.active_node` to the node-change effect.
If the dependency is unchanged, React does not re-run the effect.  Otherwise
the previous run's cleanup (`clearTimeout`) fires, then the body: on a
detected change it rewrites `previousNode.current`, pulses the node, starts a
fresh 1000 ms decay timeout, and broadcasts to the registry (which the
invoked callbacks may mutate).  Returns the new state and the invocations
`(callback, node)` performed. -/
def deliverStep (s : HookState) (a : Option NodeType) :
    HookState × List (Nat × NodeType) :=
  if s.lastDep = some a then (s, [])
  else
    let c := resolveNode a
    if some c = s.previousNode then
      ({ s with lastDep := some a, timer := none }, [])
    else
      let b := broadcast s.callbacks
      ({ lastDep := some a
         previousNode := some c
         callbacks := b.2
         pulsingNode := some c
         timer := some 1000 }, b.1.map (fun i => (i, c)))

/-- Elapse `d` time units: a pending decay timeout with `t ≤ d` remaining
fires (`setPulsingNode(null)`), touching nothing else. -/
def tickStep (s : HookState) (d : Nat) : HookState :=
  match s.timer with
  | none => s
  | some t =>
    if t ≤ d then { s with pulsingNode := none, timer := none }
    else { s with timer := some (t - d) }

/-- External stimuli to the controller: a render delivering the effect
dependency, or fake-timer time passing. -/
inductive HEvent
  | deliver (a : Option NodeType)
  | tick (d : Nat)
deriving DecidableEq, Repr

/-- One event step (invocations of a `tick` are empty). -/
def stepEv (s : HookState) : HEvent → HookState × List (Nat × NodeType)
  | HEvent.deliver a => deliverStep s a
  | HEvent.tick d => (tickStep s d, [])

/-- Run a sequence of events. -/
def runEvs (s : HookState) : List HEvent → HookState
  | [] => s
  | e :: es => runEvs (stepEv s e).1 es

/-- Total time elapsed in an event sequence. -/
def totalTicks : List HEvent → Nat
  | [] => 0
  | HEvent.deliver _ :: es => totalTicks es
  | HEvent.tick d :: es => d + totalTicks es

/-- Controller state at mount, with the given already-registered callbacks:
`previousNode.current = null`, no pulse, no timer, effect not yet run. -/
def initWith (regs : Registry) : HookState :=
  { lastDep := none
    previousNode := none
    callbacks := regs
    pulsingNode := none
    timer := none }

/-- Operations the hook issues to the CopilotKit transport:
`setState(snapshot)` writes and `run()` starts the remote run. -/
inductive RemoteOp
  | setStateOp (st : OracleState)
  | runOp
deriving DecidableEq, Repr

/-- The code points ECMA-262 `String.prototype.trim` strips (`TrimString`):
*WhiteSpace* — TAB, VT, FF, SP, NBSP, ZWNBSP and the Unicode `Space_Separator`
characters (U+1680, U+2000..U+200A, U+202F, U+205F, U+3000) — together with
*LineTerminator* — LF, CR, LS (U+2028), PS (U+2029). -/
def jsWhitespace (c : Char) : Bool :=
  c == ' ' || c == '\t' || c == '\n' || c == '\r' || c == '\x0b' || c == '\x0c' ||
  c == '\u00A0' || c == '\uFEFF' || c == '\u1680' ||
  c == '\u2000' || c == '\u2001' || c == '\u2002' || c == '\u2003' ||
  c == '\u2004' || c == '\u2005' || c == '\u2006' || c == '\u2007' ||
  c == '\u2008' || c == '\u2009' || c == '\u200A' ||
  c == '\u202F' || c == '\u205F' || c == '\u3000' ||
  c == '\u2028' || c == '\u2029'

/-- JavaScript `query.trim()`. -/
def jsTrim (s : String) : String :=
  String.mk (((s.data.dropWhile jsWhitespace).reverse.dropWhile jsWhitespace).reverse)

/-- `sendQuery(query)` from `useKeibaOracle.ts`, as the list of transport
operations it issues in order: blank input returns early; otherwise one
`setState({...DEFAULT_STATE, query: query.trim()})` followed by `run()`.
It touches no local hook state. -/
def sendQuery (query : String) : List RemoteOp :=
  if jsTrim query = "" then []
  else
    [RemoteOp.setStateOp { DEFAULT_STATE with query := jsTrim query },
     RemoteOp.runOp]

/-- `reset()` from `useKeibaOracle.ts`: `setState(DEFAULT_STATE)`;
`previousNode.current = null`; `setPulsingNode(null)`.  (It does not touch
the pending decay timeout.)  Returns the new local state and the transport
operations issued. -/
def reset (s : HookState) : HookState × List RemoteOp :=
  ({ s with previousNode := none, pulsingNode := none },
   [RemoteOp.setStateOp DEFAULT_STATE])

/-- The four stage names of `NodeType`, as runtime strings. -/
def fourStages : List String := ["idle", "scout", "strategist", "auditor"]

/-- `state?.active_node || "idle"` at the untyped runtime level, where the
remote snapshot may carry any string: `undefined` (missing state or field)
and `""` are falsy and fall back to `"idle"`; every other string is truthy
and passes through. -/
def resolveRawStage (a : Option String) : String :=
  match a with
  | none => "idle"
  | some s => if s = "" then "idle" else s

/-- The claim-relevant fields of the hook's returned derived view. -/
structure DerivedView where
  state : OracleState
  isLoading : Bool
  isActive : Bool
  currentNode : NodeType
deriving DecidableEq, Repr

/-- The derived view built in the hook's return value:
`state: state || DEFAULT_STATE`, `isLoading: running`,
`isActive: (state?.active_node || "idle") !== "idle"`,
`currentNode: state?.active_node || "idle"`. -/
def deriveView (st : Option OracleState) (running : Bool) : DerivedView :=
  { state := st.getD DEFAULT_STATE
    isLoading := running
    isActive := !((st.map OracleState.active_node).getD NodeType.idle == NodeType.idle)
    currentNode := (st.map OracleState.active_node).getD NodeType.idle }

/-! ## Helper lemmas about the observer registry -/

/-- The invoked callbacks of a live `forEach` form a subsequence of the
pending registrations: each is invoked at most once and in insertion order. -/
theorem forEachLive_fst_sublist (ps : List (Nat × CbAction)) :
    ∀ cur : Registry, ((forEachLive ps cur).1).Sublist (ps.map Prod.fst) := by
  induction ps with
  | nil => intro cur; simp [forEachLive]
  | cons p ps ih =>
    intro cur
    simp only [forEachLive, List.map_cons]
    split
    · exact (ih (applyCb cur p.2)).cons₂ p.1
    · exact (ih cur).cons p.1

/-- Callback invocations never remove an identifier that was absent:
`applyCb` only deletes. -/
theorem applyCb_fst_subset (cur : Registry) (a : CbAction) :
    ((applyCb cur a).map Prod.fst) ⊆ cur.map Prod.fst := by
  cases a with
  | nop => exact fun x hx => hx
  | unsub j => exact List.map_subset _ (fun x hx => (List.mem_filter.mp hx).1)

/-- The registry left behind by a live `forEach` only ever shrinks. -/
theorem forEachLive_reg_subset (ps : List (Nat × CbAction)) :
    ∀ cur : Registry, ((forEachLive ps cur).2.map Prod.fst) ⊆ cur.map Prod.fst := by
  induction ps with
  | nil => intro cur; simp [forEachLive]
  | cons p ps ih =>
    intro cur
    simp only [forEachLive]
    split
    · exact fun x hx => applyCb_fst_subset cur p.2 (ih (applyCb cur p.2) hx)
    · exact ih cur

/-- Membership test used by the live `forEach`. -/
theorem any_fst_eq (cur : Registry) (i : Nat) :
    cur.any (fun q => q.1 == i) = true ↔ i ∈ cur.map Prod.fst := by
  simp [List.any_eq_true, beq_iff_eq]

/-- `noForward p q`: callback `p` does not unsubscribe callback `q`
(used between a callback and the callbacks registered strictly after it). -/
def noForward : Nat × CbAction → Nat × CbAction → Prop
  | (_, CbAction.nop), _ => True
  | (_, CbAction.unsub t), q => t ≠ q.1

instance : ∀ p q : Nat × CbAction, Decidable (noForward p q)
  | (_, CbAction.nop), _ => isTrue trivial
  | (_, CbAction.unsub t), q => inferInstanceAs (Decidable (t ≠ q.1))

/-- If every pending callback is still registered and no pending callback
unsubscribes one registered after it, the live `forEach` invokes every
pending callback, in order. -/
theorem forEachLive_fst_eq :
    ∀ (ps : List (Nat × CbAction)) (cur : Registry),
      (∀ p ∈ ps, p.1 ∈ cur.map Prod.fst) → List.Pairwise noForward ps →
      (forEachLive ps cur).1 = ps.map Prod.fst := by
  intro ps
  induction ps with
  | nil => intro cur _ _; rfl
  | cons p ps ih =>
    intro cur hmem hpw
    rw [List.pairwise_cons] at hpw
    have hp : cur.any (fun q => q.1 == p.1) = true :=
      (any_fst_eq cur p.1).2 (hmem p (by simp))
    simp only [forEachLive, hp, if_true, List.map_cons, List.cons.injEq, true_and]
    refine ih (applyCb cur p.2) ?_ hpw.2
    intro q hq
    have hqc : q.1 ∈ cur.map Prod.fst := hmem q (List.mem_cons_of_mem _ hq)
    obtain ⟨i, act⟩ := p
    cases act with
    | nop => exact hqc
    | unsub t =>
      have ht : t ≠ q.1 := hpw.1 q hq
      obtain ⟨r, hr, hrq⟩ := List.mem_map.1 hqc
      refine List.mem_map.2 ⟨r, List.mem_filter.2 ⟨hr, ?_⟩, hrq⟩
      simpa [bne_iff_ne, hrq] using fun h => ht h.symm

/-- Pure observers (callbacks that do nothing to the registry) never
unsubscribe anyone. -/
theorem pairwise_noForward_of_nop (regs : Registry)
    (h : ∀ p ∈ regs, p.2 = CbAction.nop) : List.Pairwise noForward regs := by
  induction regs with
  | nil => exact List.Pairwise.nil
  | cons p ps ih =>
    refine List.pairwise_cons.2 ⟨?_, ih (fun q hq => h q (List.mem_cons_of_mem _ hq))⟩
    intro q _
    obtain ⟨i, act⟩ := p
    have := h (i, act) (by simp)
    simp only at this
    subst this
    trivial

/-- A broadcast over a registry with no forward unsubscriptions invokes
exactly the registered callbacks, in registration order. -/
theorem broadcast_fst_eq (regs : Registry) (h : List.Pairwise noForward regs) :
    (broadcast regs).1 = regs.map Prod.fst :=
  forEachLive_fst_eq regs regs (fun p hp => List.mem_map.2 ⟨p, hp, rfl⟩) h

/-- An identifier absent from the registry is never invoked by any number of
subsequent broadcasts. -/
theorem broadcastIter_not_invoked (i : Nat) :
    ∀ (k : Nat) (regs : Registry), i ∉ regs.map Prod.fst →
      i ∉ (broadcastIter regs k).1 := by
  intro k
  induction k with
  | zero => intro regs _ h; simp [broadcastIter] at h
  | succ k ih =>
    intro regs hreg
    simp only [broadcastIter, List.mem_append, not_or]
    constructor
    · intro h
      exact hreg ((forEachLive_fst_sublist regs regs).subset h)
    · exact ih (broadcast regs).2
        (fun h => hreg (forEachLive_reg_subset regs regs h))

/-! ## Claim theorems -/

/-- Claim C1 (confirmed).  Delivering a snapshot whose active stage equals the
previously delivered one (the effect dependency is unchanged, so React skips
the effect) is a complete no-op: the hook state — previous-stage memory,
pulse, decay timer, registry — is untouched and no callback is invoked. -/
theorem unchanged_stage_delivery_noop (s : HookState) (n : NodeType)
    (h : s.lastDep = some (some n)) :
    deliverStep s (some n) = (s, []) := by
  simp [deliverStep, h]

/-- Witness for C1: after a first delivery of `scout`, a second delivery of
`scout` changes nothing and invokes nobody. -/
theorem unchanged_stage_delivery_noop_witness :
    ((deliverStep (initWith []) (some NodeType.scout)).1.lastDep
        = some (some NodeType.scout)) ∧
    deliverStep ((deliverStep (initWith []) (some NodeType.scout)).1)
        (some NodeType.scout)
      = ((deliverStep (initWith []) (some NodeType.scout)).1, []) :=
  ⟨by decide,
   unchanged_stage_delivery_noop _ NodeType.scout (by decide)⟩

/-- Claim C4 (confirmed).  `sendQuery` is a silent no-op on blank input
(no state write, no run); otherwise it issues exactly one state write — the
canonical default snapshot with `query` set to the trimmed text — followed by
exactly one run-start invocation. -/
theorem sendQuery_contract (q : String) :
    (jsTrim q = "" → sendQuery q = []) ∧
    (jsTrim q ≠ "" →
      sendQuery q =
        [RemoteOp.setStateOp { DEFAULT_STATE with query := jsTrim q },
         RemoteOp.runOp]) := by
  constructor
  · intro h; simp [sendQuery, h]
  · intro h; simp [sendQuery, h]

/-- Witness for C4 on ASCII-blank `"   "`, on input blank only by non-ASCII
`trim` whitespace (NBSP, ideographic space, line separator), on `"  abc  "`,
and on text padded with NBSP. -/
theorem sendQuery_contract_witness :
    (jsTrim "   " = "" ∧ sendQuery "   " = []) ∧
    (jsTrim "\u00A0\u3000\u2028" = "" ∧ sendQuery "\u00A0\u3000\u2028" = []) ∧
    (jsTrim "  abc  " ≠ "" ∧
      sendQuery "  abc  " =
        [RemoteOp.setStateOp { DEFAULT_STATE with query := jsTrim "  abc  " },
         RemoteOp.runOp]) ∧
    (jsTrim "\u00A0a\u00A0" = "a" ∧
      sendQuery "\u00A0a\u00A0" =
        [RemoteOp.setStateOp { DEFAULT_STATE with query := "a" },
         RemoteOp.runOp]) :=
  ⟨⟨by decide, (sendQuery_contract "   ").1 (by decide)⟩,
   ⟨by decide, (sendQuery_contract "\u00A0\u3000\u2028").1 (by decide)⟩,
   ⟨by decide, (sendQuery_contract "  abc  ").2 (by decide)⟩,
   ⟨by decide,
    ((sendQuery_contract "\u00A0a\u00A0").2 (by decide)).trans (by decide)⟩⟩

/-- Counterexample to claim C5 as stated.  `reset()` does not cancel a
pending decay timer: from a freshly transitioned state (decay timer pending
at 1000), `reset` leaves the timeout pending — the claim's "canceling any
pending decay timer" is false, even though `pulsingNode` is forced to null. -/
theorem reset_leaves_timer_pending :
    (reset ((deliverStep (initWith []) (some NodeType.scout)).1)).1.pulsingNode
        = none ∧
    (reset ((deliverStep (initWith []) (some NodeType.scout)).1)).1.timer
        = some 1000 ∧
    (reset ((deliverStep (initWith []) (some NodeType.scout)).1)).1.timer
        ≠ none := by
  decide

/-- Claim C5 (amended).  `reset()` synchronously issues exactly one state
write equal to the canonical default (and no run call), clears the
previous-stage memory, forces `pulsingNode` to null, and is idempotent.  It
does not cancel a pending decay timer, but the leftover timeout is
observationally harmless: firing it can only set the already-null
`pulsingNode` to null. -/
theorem reset_contract (s : HookState) :
    (reset s).2 = [RemoteOp.setStateOp DEFAULT_STATE] ∧
    (reset s).1.previousNode = none ∧
    (reset s).1.pulsingNode = none ∧
    reset ((reset s).1) = reset s ∧
    (∀ d : Nat, (tickStep ((reset s).1) d).pulsingNode = none) := by
  refine ⟨rfl, rfl, rfl, rfl, ?_⟩
  intro d
  simp only [reset, tickStep]
  cases s.timer with
  | none => rfl
  | some t =>
    by_cases h : t ≤ d
    · simp [h]
    · simp [h]

/-- Counterexample to claim C6 as stated.  An unknown, non-empty active-stage
string in a runtime snapshot is passed through unchanged by
`state?.active_node || "idle"`, not collapsed to `idle`: the exposed value
can fall outside the four-value stage set. -/
theorem unknown_stage_passes_through :
    resolveRawStage (some "bogus") = "bogus" ∧ "bogus" ∉ fourStages := by
  decide

/-- Claim C6 (amended).  `state?.active_node || "idle"` collapses a missing
or empty active-stage value to `idle` (never an exception — the resolver is
total), so the exposed stage lies in the four-value set whenever the incoming
value is missing, empty, or one of the four stage names; any other non-empty
string is passed through unchanged. -/
theorem resolveRawStage_contract (a : Option String) :
    resolveRawStage none = "idle" ∧
    resolveRawStage (some "") = "idle" ∧
    ((a = none ∨ a = some "" ∨ ∃ s, a = some s ∧ s ∈ fourStages) →
      resolveRawStage a ∈ fourStages) ∧
    (∀ s : String, s ≠ "" → resolveRawStage (some s) = s) := by
  refine ⟨rfl, by decide, ?_, ?_⟩
  · rintro (rfl | rfl | ⟨s, rfl, hs⟩)
    · decide
    · decide
    · by_cases h : s = ""
      · subst h; decide
      · simpa [resolveRawStage, h] using hs
  · intro s hs
    simp [resolveRawStage, hs]

/-- Witness for C6: a typed stage name resolves into the stage set, and an
unknown non-empty string passes through. -/
theorem resolveRawStage_contract_witness :
    resolveRawStage (some "scout") ∈ fourStages ∧
    resolveRawStage (some "zzz") = "zzz" :=
  ⟨(resolveRawStage_contract (some "scout")).2.2.1
      (Or.inr (Or.inr ⟨"scout", rfl, by decide⟩)),
   (resolveRawStage_contract (some "zzz")).2.2.2 "zzz" (by decide)⟩

/-- Claim C8 (confirmed).  The derived view exposes the snapshot itself (the
canonical default when none has arrived), mirrors the transport's `running`
flag as `isLoading`, exposes the active stage as `currentNode`, and reports
`isActive` exactly when that stage is not `idle`; a fresh controller with no
snapshot reports the default state, `currentNode = idle`, `isActive = false`. -/
theorem deriveView_contract (st : Option OracleState) (running : Bool) :
    (deriveView st running).state = st.getD DEFAULT_STATE ∧
    (deriveView st running).isLoading = running ∧
    (∀ s0 : OracleState, st = some s0 →
      (deriveView st running).currentNode = s0.active_node) ∧
    ((deriveView st running).isActive = true ↔
      (deriveView st running).currentNode ≠ NodeType.idle) ∧
    (deriveView none false).state = DEFAULT_STATE ∧
    (deriveView none false).currentNode = NodeType.idle ∧
    (deriveView none false).isActive = false := by
  refine ⟨rfl, rfl, ?_, ?_, rfl, rfl, rfl⟩
  · rintro s0 rfl; rfl
  · cases st with
    | none => simp [deriveView]
    | some s0 =>
      cases h : s0.active_node <;> simp [deriveView, h]

/-- Witness for C8 at a concrete non-idle snapshot. -/
theorem deriveView_contract_witness :
    (deriveView (some { DEFAULT_STATE with active_node := NodeType.scout })
        true).currentNode = NodeType.scout ∧
    (deriveView (some { DEFAULT_STATE with active_node := NodeType.scout })
        true).isActive = true :=
  have h := deriveView_contract
    (some { DEFAULT_STATE with active_node := NodeType.scout }) true
  ⟨h.2.2.1 _ rfl, h.2.2.2.1.2 (by decide)⟩

/-- With `nodup` identifiers, unsubscribing a registered callback removes
exactly one entry. -/
theorem unsubscribe_length (regs : Registry) (i : Nat)
    (hnd : (regs.map Prod.fst).Nodup) (hi : i ∈ regs.map Prod.fst) :
    (unsubscribe i regs).length + 1 = regs.length := by
  induction regs with
  | nil => simp at hi
  | cons p ps ih =>
    simp only [List.map_cons, List.nodup_cons] at hnd
    by_cases hpi : p.1 = i
    · have hfe : unsubscribe i ps = ps := by
        refine List.filter_eq_self.2 ?_
        intro q hq
        simp only [bne_iff_ne]
        intro hqi
        refine hnd.1 ?_
        rw [hpi, ← hqi]
        exact List.mem_map.2 ⟨q, hq, rfl⟩
      have hdrop : (p.1 != i) = false := by simp [hpi]
      simp only [unsubscribe, List.filter_cons, hdrop, Bool.false_eq_true,
        if_false, List.length_cons]
      simp only [unsubscribe] at hfe
      rw [hfe]
    · have hi' : i ∈ ps.map Prod.fst :=
        (List.mem_cons.1 hi).resolve_left (fun h => hpi h.symm)
      have hrec := ih hnd.2 hi'
      have hkeep : (p.1 != i) = true := by simpa [bne_iff_ne] using hpi
      simp only [unsubscribe, List.filter_cons, hkeep, if_true, List.length_cons]
      simp only [unsubscribe] at hrec
      omega

/-- Counterexample to claim C3 as stated.  `Set.prototype.forEach` iterates
the live set: with callbacks `0` and `1` registered at broadcast start, where
callback `0` unsubscribes callback `1`, the broadcast invokes only `0` —
callback `1`, registered when the broadcast began, is skipped. -/
theorem broadcast_skips_unsubscribed :
    (broadcast [(0, CbAction.unsub 1), (1, CbAction.nop)]).1 = [0] ∧
    (1 : Nat) ∈ ([(0, CbAction.unsub 1), (1, CbAction.nop)] : Registry).map Prod.fst ∧
    (1 : Nat) ∉ (broadcast [(0, CbAction.unsub 1), (1, CbAction.nop)]).1 := by
  decide

/-- Claim C3 (amended).  A broadcast invokes only callbacks registered at its
start, each at most once and in registration order (never a duplicate); and
when no callback unsubscribes a strictly later-registered one — which covers
a callback unsubscribing itself or an already-invoked callback — every
callback registered at broadcast start is invoked exactly once.  Unsubscribing
a not-yet-visited callback mid-broadcast, however, skips it (live iteration,
not a snapshot). -/
theorem broadcast_live_contract (regs : Registry) :
    ((broadcast regs).1).Sublist (regs.map Prod.fst) ∧
    (List.Pairwise noForward regs →
      (broadcast regs).1 = regs.map Prod.fst) := by
  exact ⟨forEachLive_fst_sublist regs regs, broadcast_fst_eq regs⟩

/-- Witness for C3: callback `0` unsubscribes itself and callback `1`
unsubscribes the already-invoked `0`; nobody is skipped or duplicated. -/
theorem broadcast_live_contract_witness :
    List.Pairwise noForward
      [(0, CbAction.unsub 0), (1, CbAction.unsub 0), (2, CbAction.nop)] ∧
    (broadcast [(0, CbAction.unsub 0), (1, CbAction.unsub 0), (2, CbAction.nop)]).1
      = [0, 1, 2] :=
  ⟨by decide,
   (broadcast_live_contract
      [(0, CbAction.unsub 0), (1, CbAction.unsub 0), (2, CbAction.nop)]).2
     (by decide)⟩

/-- Claim C7 (confirmed).  The unsubscribe closure returned by `onNodeChange`
removes exactly its own registration: every other identifier's membership is
untouched, the callback's identifier is gone, the registry shrinks by exactly
one entry, calling unsubscribe a second time is a no-op, and the callback is
never invoked by any number of later broadcasts. -/
theorem unsubscribe_contract (regs : Registry) (i : Nat)
    (hnd : (regs.map Prod.fst).Nodup) (hi : i ∈ regs.map Prod.fst) :
    (∀ j, j ≠ i →
      (j ∈ (unsubscribe i regs).map Prod.fst ↔ j ∈ regs.map Prod.fst)) ∧
    i ∉ (unsubscribe i regs).map Prod.fst ∧
    (unsubscribe i regs).length + 1 = regs.length ∧
    unsubscribe i (unsubscribe i regs) = unsubscribe i regs ∧
    (∀ k : Nat, i ∉ (broadcastIter (unsubscribe i regs) k).1) := by
  refine ⟨?_, ?_, ?_, ?_, ?_⟩
  · intro j hj
    simp only [unsubscribe, List.mem_map, List.mem_filter, bne_iff_ne]
    constructor
    · rintro ⟨p, ⟨hp, _⟩, rfl⟩; exact ⟨p, hp, rfl⟩
    · rintro ⟨p, hp, rfl⟩; exact ⟨p, ⟨hp, hj⟩, rfl⟩
  · simp only [unsubscribe, List.mem_map, List.mem_filter, bne_iff_ne]
    rintro ⟨p, ⟨_, hp⟩, rfl⟩
    exact hp rfl
  · exact unsubscribe_length regs i hnd hi
  · refine List.filter_eq_self.2 ?_
    intro q hq
    exact (List.mem_filter.1 hq).2
  · intro k
    apply broadcastIter_not_invoked
    simp only [unsubscribe, List.mem_map, List.mem_filter, bne_iff_ne]
    rintro ⟨p, ⟨_, hp⟩, rfl⟩
    exact hp rfl

/-- Witness for C7 on a two-callback registry: unsubscribing callback `1`
removes it, and three later broadcasts never invoke it. -/
theorem unsubscribe_contract_witness :
    ((([(1, CbAction.nop), (2, CbAction.nop)] : Registry).map Prod.fst).Nodup ∧
      (1 : Nat) ∈ (([(1, CbAction.nop), (2, CbAction.nop)] : Registry).map Prod.fst)) ∧
    (1 : Nat) ∉ (unsubscribe 1 [(1, CbAction.nop), (2, CbAction.nop)]).map Prod.fst ∧
    (1 : Nat) ∉ (broadcastIter (unsubscribe 1 [(1, CbAction.nop), (2, CbAction.nop)]) 3).1 :=
  have h := unsubscribe_contract [(1, CbAction.nop), (2, CbAction.nop)] 1
    (by decide) (by decide)
  ⟨⟨by decide, by decide⟩, h.2.1, h.2.2.2.2 3⟩

/-- Claim C9 (confirmed).  `previousNode.current` starts as `null`, so the
effect's very first run always detects a transition, whatever the delivered
stage (including the default `idle` with no remote snapshot): it writes the
previous-stage memory, pulses that stage, starts the 1000-unit decay timer,
and broadcasts the stage to every registered pure-observer callback. -/
theorem initial_delivery_always_transitions (regs : Registry)
    (a : Option NodeType) (hnop : ∀ p ∈ regs, p.2 = CbAction.nop) :
    (deliverStep (initWith regs) a).1.previousNode = some (resolveNode a) ∧
    (deliverStep (initWith regs) a).1.pulsingNode = some (resolveNode a) ∧
    (deliverStep (initWith regs) a).1.timer = some 1000 ∧
    (deliverStep (initWith regs) a).2
      = regs.map (fun p => (p.1, resolveNode a)) := by
  have hb := broadcast_fst_eq regs (pairwise_noForward_of_nop regs hnop)
  simp [deliverStep, initWith, hb, List.map_map, Function.comp]

/-- Witness for C9: two pure observers, no remote snapshot (`state`
missing): both are notified of `idle`, which pulses with a fresh timer. -/
theorem initial_delivery_always_transitions_witness :
    (deliverStep (initWith [(5, CbAction.nop), (7, CbAction.nop)]) none).1.pulsingNode
        = some NodeType.idle ∧
    (deliverStep (initWith [(5, CbAction.nop), (7, CbAction.nop)]) none).1.timer
        = some 1000 ∧
    (deliverStep (initWith [(5, CbAction.nop), (7, CbAction.nop)]) none).2
        = [(5, NodeType.idle), (7, NodeType.idle)] :=
  have h := initial_delivery_always_transitions
    [(5, CbAction.nop), (7, CbAction.nop)] none (by decide)
  ⟨h.2.1, h.2.2.1, h.2.2.2.trans (by decide)⟩

/-- Claim C10 (confirmed).  The registry is a `Set` keyed by callback
reference: registering the same reference twice leaves a single
registration, a broadcast over pure observers invokes it exactly once, and
one unsubscribe call removes it entirely. -/
theorem duplicate_subscribe_contract (regs : Registry) (cb : Nat × CbAction)
    (hcb : cb.1 ∉ regs.map Prod.fst)
    (hnop : ∀ p ∈ regs, p.2 = CbAction.nop) (hcbnop : cb.2 = CbAction.nop) :
    onNodeChange (onNodeChange regs cb) cb = onNodeChange regs cb ∧
    ((broadcast (onNodeChange (onNodeChange regs cb) cb)).1).count cb.1 = 1 ∧
    cb.1 ∉ (unsubscribe cb.1 (onNodeChange (onNodeChange regs cb) cb)).map Prod.fst := by
  have h1 : onNodeChange regs cb = regs ++ [cb] := by
    simp [onNodeChange, hcb]
  have hmem : cb.1 ∈ (regs ++ [cb]).map Prod.fst :=
    List.mem_map.2 ⟨cb, by simp, rfl⟩
  have h2 : onNodeChange (regs ++ [cb]) cb = regs ++ [cb] := by
    simp [onNodeChange, hmem]
  have hnop' : ∀ p ∈ regs ++ [cb], p.2 = CbAction.nop := by
    intro p hp
    rcases List.mem_append.1 hp with hp | hp
    · exact hnop p hp
    · simp only [List.mem_singleton] at hp
      rw [hp]; exact hcbnop
  have hb := broadcast_fst_eq (regs ++ [cb]) (pairwise_noForward_of_nop _ hnop')
  refine ⟨by rw [h1, h2], ?_, ?_⟩
  · rw [h1, h2, hb]
    simp only [List.map_append, List.count_append]
    rw [List.count_eq_zero.2 hcb]
    simp
  · rw [h1, h2]
    simp only [unsubscribe, List.mem_map, List.mem_filter, bne_iff_ne]
    rintro ⟨p, ⟨_, hp⟩, hq⟩
    exact hp hq

/-- Witness for C10: double-registering callback `0` next to callback `1`
yields one registration, one invocation per broadcast, and one unsubscribe
removes it. -/
theorem duplicate_subscribe_contract_witness :
    onNodeChange (onNodeChange [(1, CbAction.nop)] (0, CbAction.nop)) (0, CbAction.nop)
        = onNodeChange [(1, CbAction.nop)] (0, CbAction.nop) ∧
    ((broadcast (onNodeChange (onNodeChange [(1, CbAction.nop)] (0, CbAction.nop))
        (0, CbAction.nop))).1).count 0 = 1 ∧
    (0 : Nat) ∉ (unsubscribe 0 (onNodeChange (onNodeChange [(1, CbAction.nop)]
        (0, CbAction.nop)) (0, CbAction.nop))).map Prod.fst :=
  duplicate_subscribe_contract [(1, CbAction.nop)] (0, CbAction.nop)
    (by decide) (by decide) rfl

/-! ## Helper lemmas for the pulse decay timeline -/

/-- Once the pulse has decayed (no pending timer), further ticks and repeat
deliveries of the already-delivered stage change nothing. -/
theorem runEvs_stable (n : NodeType) :
    ∀ (evs : List HEvent) (s : HookState),
      s.lastDep = some (some n) → s.timer = none →
      (∀ e ∈ evs, (∃ d, e = HEvent.tick d) ∨ e = HEvent.deliver (some n)) →
      runEvs s evs = s := by
  intro evs
  induction evs with
  | nil => intro s _ _ _; rfl
  | cons e evs ih =>
    intro s hdep htim hq
    have hq' : ∀ e ∈ evs, (∃ d, e = HEvent.tick d) ∨ e = HEvent.deliver (some n) :=
      fun e he => hq e (List.mem_cons_of_mem _ he)
    rcases hq e (List.mem_cons_self _ _) with ⟨d, rfl⟩ | rfl
    · have hstep : stepEv s (HEvent.tick d) = (s, []) := by
        simp [stepEv, tickStep, htim]
      rw [runEvs, hstep]
      exact ih s hdep htim hq'
    · have hstep : stepEv s (HEvent.deliver (some n)) = (s, []) := by
        simp [stepEv, deliverStep, hdep]
      rw [runEvs, hstep]
      exact ih s hdep htim hq'

/-- Timeline of a pulsing stage `n` with `t` units left on the decay timer,
under a quiet trace (ticks and repeat deliveries of stage `n` only): the
pulse reads `n` until the accumulated ticks reach `t`, and reads `null` with
the timer gone from then on. -/
theorem runEvs_decay (n : NodeType) :
    ∀ (evs : List HEvent) (s : HookState) (t : Nat),
      s.previousNode = some n → s.lastDep = some (some n) →
      s.pulsingNode = some n → s.timer = some t → 0 < t →
      (∀ e ∈ evs, (∃ d, e = HEvent.tick d) ∨ e = HEvent.deliver (some n)) →
      (totalTicks evs < t →
        (runEvs s evs).pulsingNode = some n ∧
        (runEvs s evs).timer = some (t - totalTicks evs)) ∧
      (t ≤ totalTicks evs →
        (runEvs s evs).pulsingNode = none ∧ (runEvs s evs).timer = none) := by
  intro evs
  induction evs with
  | nil =>
    intro s t _ _ hpul htim ht _
    exact ⟨fun _ => ⟨hpul, by simpa [runEvs, totalTicks] using htim⟩,
           fun h => absurd h (by simp [totalTicks]; omega)⟩
  | cons e evs ih =>
    intro s t hprev hdep hpul htim ht hq
    have hq' : ∀ e ∈ evs, (∃ d, e = HEvent.tick d) ∨ e = HEvent.deliver (some n) :=
      fun e he => hq e (List.mem_cons_of_mem _ he)
    rcases hq e (List.mem_cons_self _ _) with ⟨d, rfl⟩ | rfl
    · by_cases hd : t ≤ d
      · have hstep : stepEv s (HEvent.tick d)
            = ({ s with pulsingNode := none, timer := none }, []) := by
          simp [stepEv, tickStep, htim, hd]
        have hstable :
            runEvs ({ s with pulsingNode := none, timer := none }) evs
              = { s with pulsingNode := none, timer := none } :=
          runEvs_stable n evs _ (by simpa using hdep) rfl hq'
        constructor
        · intro h
          exfalso
          simp only [totalTicks] at h
          omega
        · intro _
          rw [runEvs, hstep, hstable]
          exact ⟨rfl, rfl⟩
      · push_neg at hd
        have hstep : stepEv s (HEvent.tick d)
            = ({ s with timer := some (t - d) }, []) := by
          simp [stepEv, tickStep, htim, Nat.not_le.2 hd]
        have hih := ih ({ s with timer := some (t - d) }) (t - d)
          (by simpa using hprev) (by simpa using hdep) (by simpa using hpul)
          rfl (by omega) hq'
        rw [runEvs, hstep]
        constructor
        · intro h
          simp only [totalTicks] at h
          have h' : totalTicks evs < t - d := by omega
          refine ⟨(hih.1 h').1, ?_⟩
          rw [(hih.1 h').2]
          simp only [totalTicks]
          congr 1
          omega
        · intro h
          simp only [totalTicks] at h
          exact hih.2 (by omega)
    · have hstep : stepEv s (HEvent.deliver (some n)) = (s, []) := by
        simp [stepEv, deliverStep, hdep]
      rw [runEvs, hstep]
      have hih := ih s t hprev hdep hpul htim ht hq'
      simpa [totalTicks] using hih

/-- Counterexample to claim C2 as stated.  Deliver a missing agent state
(the effect runs, transitions to the resolved `idle`, pulses it), then
deliver an explicit `idle` snapshot: the effect dependency changed
(`undefined` to `"idle"`) so React runs the cleanup, cancelling the decay
timeout — but resolved `idle` equals the previous stage, so no new timeout
starts and no transition occurs (no broadcast, previous-stage memory
unchanged).  After 1000 quiet time units the pulse still reads `idle`
instead of the `null` the claim promises. -/
theorem pulse_can_outlive_decay_interval :
    ((deliverStep ((deliverStep (initWith []) none).1) (some NodeType.idle)).2
        = [] ∧
      (deliverStep ((deliverStep (initWith []) none).1) (some NodeType.idle)).1.previousNode
        = (deliverStep (initWith []) none).1.previousNode) ∧
    (runEvs (initWith [])
        [HEvent.deliver none, HEvent.deliver (some NodeType.idle),
         HEvent.tick 1000]).pulsingNode = some NodeType.idle := by
  decide

/-- Claim C2 (amended).  Restricted to deliveries that carry a present
snapshot (so the raw effect dependency coincides with the resolved stage —
the situation the missing-state counterexample escapes): while stage `n` is
pulsing with `t ≤ 1000` units left, any quiet continuation (time passing
and repeat deliveries of `n`) keeps `pulsingNode = n` strictly before `t`
units have elapsed and yields `pulsingNode = null` from `t` units on; and a
delivery of a different stage `m` makes the pulse read `m` with a fresh
full 1000-unit timer — the prior timeout is cancelled, never left to cut
the new pulse short. -/
theorem pulse_follows_last_transition (s : HookState) (n : NodeType) (t : Nat)
    (evs : List HEvent)
    (hprev : s.previousNode = some n) (hdep : s.lastDep = some (some n))
    (hpul : s.pulsingNode = some n) (htim : s.timer = some t) (ht : 0 < t)
    (hq : ∀ e ∈ evs, (∃ d, e = HEvent.tick d) ∨ e = HEvent.deliver (some n)) :
    (totalTicks evs < t →
      (runEvs s evs).pulsingNode = some n ∧
      (runEvs s evs).timer = some (t - totalTicks evs)) ∧
    (t ≤ totalTicks evs →
      (runEvs s evs).pulsingNode = none ∧ (runEvs s evs).timer = none) ∧
    (∀ m : NodeType, m ≠ n →
      (deliverStep s (some m)).1.pulsingNode = some m ∧
      (deliverStep s (some m)).1.timer = some 1000 ∧
      (deliverStep s (some m)).1.previousNode = some m) := by
  have h := runEvs_decay n evs s t hprev hdep hpul htim ht hq
  refine ⟨h.1, h.2, ?_⟩
  intro m hm
  have h1 : ¬ s.lastDep = some (some m) := by
    rw [hdep]
    simp only [Option.some.injEq]
    exact fun hc => hm hc.symm
  have h2 : ¬ (some m = s.previousNode) := by
    rw [hprev]
    simp only [Option.some.injEq]
    exact hm
  simp [deliverStep, h1, resolveNode, h2]

/-- Witness for C2: right after a transition to `scout`, 400 units plus a
repeat `scout` delivery keep the pulse, 600 more clear it, and a `strategist`
delivery from the pulsing state restarts a full timer on `strategist`. -/
theorem pulse_follows_last_transition_witness :
    (runEvs ((deliverStep (initWith []) (some NodeType.scout)).1)
        [HEvent.tick 400, HEvent.deliver (some NodeType.scout)]).pulsingNode
      = some NodeType.scout ∧
    (runEvs ((deliverStep (initWith []) (some NodeType.scout)).1)
        [HEvent.tick 400, HEvent.deliver (some NodeType.scout),
         HEvent.tick 600]).pulsingNode = none ∧
    (deliverStep ((deliverStep (initWith []) (some NodeType.scout)).1)
        (some NodeType.strategist)).1.pulsingNode = some NodeType.strategist ∧
    (deliverStep ((deliverStep (initWith []) (some NodeType.scout)).1)
        (some NodeType.strategist)).1.timer = some 1000 :=
  have h1 := pulse_follows_last_transition
    ((deliverStep (initWith []) (some NodeType.scout)).1) NodeType.scout 1000
    [HEvent.tick 400, HEvent.deliver (some NodeType.scout)]
    (by decide) (by decide) (by decide) (by decide) (by decide)
    (by
      intro e he
      simp only [List.mem_cons, List.not_mem_nil, or_false] at he
      rcases he with rfl | rfl
      · exact Or.inl ⟨400, rfl⟩
      · exact Or.inr rfl)
  have h2 := pulse_follows_last_transition
    ((deliverStep (initWith []) (some NodeType.scout)).1) NodeType.scout 1000
    [HEvent.tick 400, HEvent.deliver (some NodeType.scout), HEvent.tick 600]
    (by decide) (by decide) (by decide) (by decide) (by decide)
    (by
      intro e he
      simp only [List.mem_cons, List.not_mem_nil, or_false] at he
      rcases he with rfl | rfl | rfl
      · exact Or.inl ⟨400, rfl⟩
      · exact Or.inr rfl
      · exact Or.inl ⟨600, rfl⟩)
  ⟨(h1.1 (by decide)).1, (h2.2.1 (by decide)).1,
   (h1.2.2 NodeType.strategist (by decide)).1,
   (h1.2.2 NodeType.strategist (by decide)).2.1⟩

end KeibaOracle
